import Mathlib

/-!
Shallow embedding of the Cyber4All/entity TypeScript sources.

Embedded files:
  * `src/lib/learning-object.ts`   — class `LearningObject`
  * `src/lib/learning-outcome.ts`  — classes `LearningOutcome`, `StandardOutcome`,
    `AssessmentPlan` (the file holds all three)
  * `src/learning-goal.ts`         — class `LearningGoal`
  * `src/lib/learning-outcome/learning-outcome.ts` — the newer `LearningOutcome`
    variant, embedded in namespace `V2`

Modelling conventions:
  * TypeScript getter/setter pairs become a field access and an explicit
    `set...` function; a setter that can `throw` returns `Except`.
  * `JSON.stringify`/`JSON.parse` round-trip is the identity on the plain
    document records, so `serialize` produces the document record directly.
  * Parent back-references (`LearningGoal._source`) are not represented: they
    are never serialized and representing them would make the record types
    mutually recursive; no embedded operation reads them.
  * JavaScript string truthiness is `s ≠ ""`; an absent/`undefined` property
    of a partial object is `Option.none`.
-/

/-- Modelled from the spec: the external clark-taxonomy provider's fixed set of
valid learning-object lengths (the taxonomy package is not part of this
repository). -/
def lengths : List String := ["nanomodule", "micromodule", "module", "unit", "course"]

/-- Modelled from the spec: the taxonomy provider's bloom level keys (example
keys from the spec's glossary). -/
def levels : List String := ["remember", "understand", "apply"]

/-- Modelled from the spec: the taxonomy provider's verb vocabulary per bloom
level, queried by membership only. -/
def verbs : String → List String
  | "remember" => ["define", "list", "recall"]
  | "understand" => ["explain", "describe"]
  | "apply" => ["use", "demonstrate"]
  | _ => []

/-- Modelled from the spec: the taxonomy provider's assessment-plan kinds per
bloom level. -/
def assessments : String → List String
  | "remember" => ["quiz", "test"]
  | "understand" => ["essay"]
  | "apply" => ["lab", "project"]
  | _ => []

/-- Modelled from the spec: `user.ts` is not among the source files; a `User`
is an identity record referenced by `LearningObject.author`. -/
structure User where
  id : String
  name : String
  email : String
  organization : String
deriving DecidableEq

/-- The `Repository` shape from `neutrino.ts` as initialized by the
`LearningObject` constructor: `{ files: [], urls: [], notes: '' }`; the
constituents are opaque to this model. -/
structure Repository where
  files : List String
  urls : List String
  notes : String
deriving DecidableEq

/-- The `Outcome` interface's data surface (`author`/`name`/`date`/`outcome`),
the type of the elements stored in `LearningOutcome._mappings`. -/
structure Outcome where
  author : String
  name : String
  date : String
  outcome : String
deriving DecidableEq

/-- `LearningGoal` from `src/learning-goal.ts`: a single `_text` field (the
`_source` back-reference is omitted, see the header comment). -/
structure LearningGoal where
  _text : String
deriving DecidableEq

/-- The serialized form of a `LearningGoal`: `JSON.stringify({ text })`. -/
structure LearningGoalDoc where
  text : String
deriving DecidableEq

def LearningGoal.serialize (entity : LearningGoal) : LearningGoalDoc :=
  ⟨entity._text⟩

/-- `LearningGoal.unserialize(msg, parent)`: reconstructs from the parsed
document; the parent back-reference supplied by the caller is not represented
here. -/
def LearningGoal.unserialize (msg : LearningGoalDoc) : LearningGoal :=
  ⟨msg.text⟩

/-- `AssessmentPlan` from `src/lib/learning-outcome.ts` (third section of the
file): `_sourceBloom` snapshot, `_plan` kind, `_text`. -/
structure AssessmentPlan where
  _sourceBloom : String
  _plan : String
  _text : String
deriving DecidableEq

/-- Modelled from the spec: `instructional-strategy.ts` is not among the source
files; per the spec it mirrors `AssessmentPlan` with a `strategy` kind field
constrained by the `sourceBloom` snapshot. -/
structure InstructionalStrategy where
  _sourceBloom : String
  _strategy : String
  _text : String
deriving DecidableEq

/-- Modelled from the spec: the plain-object properties shape for an
`AssessmentPlan` (`AssessmentPlanProperties` is imported by
`src/lib/learning-outcome.ts` but its declaration file is not among the
sources); it mirrors the class's own runtime fields. -/
structure AssessmentPlanProperties where
  _sourceBloom : String
  _plan : String
  _text : String
deriving DecidableEq

/-- Modelled from the spec: the plain-object properties shape for an
`InstructionalStrategy`, mirroring the class fields. -/
structure InstructionalStrategyProperties where
  _sourceBloom : String
  _strategy : String
  _text : String
deriving DecidableEq

/-- `LearningOutcomeSource` from `src/lib/learning-outcome.ts`: the snapshot of
the owning object's author, name and date taken by the constructor. -/
structure LearningOutcomeSource where
  author : User
  name : String
  date : String
deriving DecidableEq

/-- `LearningOutcome` from `src/lib/learning-outcome.ts` (first section of the
file). The class's index signature `[key: string]: any` — the extra properties
injected by `instantiate` — is modelled as the `extras` association list with
opaque string payloads. -/
structure LearningOutcome where
  _source : LearningOutcomeSource
  _tag : Nat
  _bloom : String
  _verb : String
  _text : String
  _mappings : List Outcome
  _assessments : List AssessmentPlan
  _strategies : List InstructionalStrategy
  extras : List (String × String)
deriving DecidableEq

/-- `LearningObject` from `src/lib/learning-object.ts`. -/
structure LearningObject where
  _author : User
  _name : String
  _date : String
  _length : String
  _goals : List LearningGoal
  _outcomes : List LearningOutcome
  _repository : Repository
deriving DecidableEq

/-! ### The constructor's tag-assignment loop

The `LearningOutcome` constructor runs

```
this._tag = 0;
let searching = true;
while (searching) {
  searching = false;
  for (let outcome of source.outcomes) {
    if (outcome.tag === this._tag) { this._tag++; searching = true; break; }
  }
}
```

`scanStep` is one execution of the inner `for` loop over the existing tags:
it returns the incremented candidate on the first collision (the `break`),
or `none` when the full pass finds no collision.  `tagLoop` is the outer
`while` loop, with fuel bounding the number of passes; `assignTag` supplies
fuel `tags.length + 1`, which `tagLoop_spec` below shows is enough for the
loop to reach its fixpoint. -/

def scanStep : List Nat → Nat → Option Nat
  | [], _ => none
  | t :: rest, c => if t = c then some (c + 1) else scanStep rest c

def tagLoop : Nat → List Nat → Nat → Nat
  | 0, _, c => c
  | fuel + 1, tags, c =>
    match scanStep tags c with
    | some c2 => tagLoop fuel tags c2
    | none => c

def assignTag (tags : List Nat) : Nat :=
  tagLoop (tags.length + 1) tags 0

/-- A JavaScript runtime error raised by the embedded code (dereferencing a
null/undefined object). -/
inductive JsError
  | typeError
deriving DecidableEq

/-- The truthiness test `if (source)` performs on an object reference:
null/undefined is falsy, any object is truthy. -/
def isTruthyObject (o : Option LearningObject) : Bool :=
  o.isSome

/-- Body of the `LearningOutcome` constructor for a non-null `source`
(see `LearningOutcome.construct` for the nullable entry point): snapshots
the source's author/name/date, runs the tag-uniqueness loop guarded by
`if (source)` — always truthy here — and initializes the remaining fields
from the first taxonomy entries. -/
def LearningOutcome.mk' (source : LearningObject) : LearningOutcome :=
  { _source := ⟨source._author, source._name, source._date⟩
    _tag := if isTruthyObject (some source) then
        assignTag (source._outcomes.map (fun o => o._tag))
      else 0
    _bloom := levels.headD ""
    _verb := (verbs (levels.headD "")).headD ""
    _text := ""
    _mappings := []
    _assessments := []
    _strategies := []
    extras := [] }

/-- The `LearningOutcome` constructor with a nullable argument: the very first
statement dereferences `source.author`, so a null/undefined `source` raises a
`TypeError` before the `if (source)` guard is ever reached. -/
def LearningOutcome.construct (source : Option LearningObject) : Except JsError LearningOutcome :=
  match source with
  | none => .error .typeError
  | some src => .ok (LearningOutcome.mk' src)

/-- The `bloom` setter: validates against the taxonomy's level keys. -/
def LearningOutcome.setBloom (o : LearningOutcome) (bloom : String) : Except String LearningOutcome :=
  if levels.contains bloom then .ok { o with _bloom := bloom }
  else .error (bloom ++ " is not a valid Bloom taxon")

/-- The `verb` setter: validates against the verb set of the current bloom. -/
def LearningOutcome.setVerb (o : LearningOutcome) (verb : String) : Except String LearningOutcome :=
  if (verbs o._bloom).contains verb then .ok { o with _verb := verb }
  else .error (verb ++ " is not a valid verb for the " ++ o._bloom ++ " taxon")

/-- The `text` setter: plain assignment. -/
def LearningOutcome.setText (o : LearningOutcome) (text : String) : LearningOutcome :=
  { o with _text := text }

/-- `mapTo(mapping)`: `return this._mappings.push(mapping);` — appends and
returns the new length of the array. -/
def LearningOutcome.mapTo (o : LearningOutcome) (mapping : Outcome) : LearningOutcome × Nat :=
  ({ o with _mappings := o._mappings ++ [mapping] }, (o._mappings ++ [mapping]).length)

/-- `unmap(i)`: `return this._mappings.splice(i, 1)[0];` — removes and returns
the i-th mapping, or `none` (undefined) when `i` is out of range. -/
def LearningOutcome.unmap (o : LearningOutcome) (i : Nat) : LearningOutcome × Option Outcome :=
  if h : i < o._mappings.length then
    ({ o with _mappings := o._mappings.take i ++ o._mappings.drop (i + 1) },
     some (o._mappings.get ⟨i, h⟩))
  else (o, none)

/-- `LearningOutcomeProperties` from `src/lib/learning-outcome.ts`: the seven
declared keys plus the index-signature keys (`extras`). -/
structure LearningOutcomeProperties where
  _tag : Nat
  _bloom : String
  _verb : String
  _text : String
  _mappings : List Outcome
  _assessments : List AssessmentPlanProperties
  _strategies : List InstructionalStrategyProperties
  extras : List (String × String)
deriving DecidableEq

/-- The caller's properties object as observed after
`LearningOutcome.instantiate` has run: each declared key is either still
present (`some`) or has been removed by a `delete` statement (`none`);
the unrecognized keys remain in `extras`. -/
structure MutableLearningOutcomeProperties where
  _tag : Option Nat
  _bloom : Option String
  _verb : Option String
  _text : Option String
  _mappings : Option (List Outcome)
  _assessments : Option (List AssessmentPlanProperties)
  _strategies : Option (List InstructionalStrategyProperties)
  extras : List (String × String)
deriving DecidableEq

/-- Modelled from the spec: `AssessmentPlan.instantiate` (its file is not
among the sources) reconstructs the plan from its plain-object properties via
the deserialization pattern of §4.2, fields copied directly; the partially
built owning outcome is passed but not consumed. -/
def AssessmentPlan.instantiate (_source : LearningOutcome) (props : AssessmentPlanProperties) :
    AssessmentPlan :=
  ⟨props._sourceBloom, props._plan, props._text⟩

/-- Modelled from the spec: `InstructionalStrategy.instantiate`, mirroring
`AssessmentPlan.instantiate`. -/
def InstructionalStrategy.instantiate (_source : LearningOutcome)
    (props : InstructionalStrategyProperties) : InstructionalStrategy :=
  ⟨props._sourceBloom, props._strategy, props._text⟩

/-- `LearningOutcome.instantiate(source, object)` from
`src/lib/learning-outcome.ts`: constructs a blank outcome on `source`, copies
the seven declared keys of `object` onto the private fields directly, rebuilds
assessments/strategies through their own `instantiate`, then executes the
seven `delete object._x` statements (mutating the caller's object, returned
here as the second component) and finally copies the remaining — unrecognized —
keys onto the outcome. -/
def LearningOutcome.instantiate (source : LearningObject) (object : LearningOutcomeProperties) :
    LearningOutcome × MutableLearningOutcomeProperties :=
  let outcome0 := LearningOutcome.mk' source
  let outcome1 := { outcome0 with
    _tag := object._tag
    _bloom := object._bloom
    _verb := object._verb
    _text := object._text
    _mappings := object._mappings }
  let outcome2 := { outcome1 with
    _assessments := object._assessments.map (fun a => AssessmentPlan.instantiate outcome1 a)
    _strategies := object._strategies.map (fun s => InstructionalStrategy.instantiate outcome1 s) }
  let objectM : MutableLearningOutcomeProperties :=
    ⟨some object._tag, some object._bloom, some object._verb, some object._text,
     some object._mappings, some object._assessments, some object._strategies, object.extras⟩
  let objectM := { objectM with _tag := none }
  let objectM := { objectM with _bloom := none }
  let objectM := { objectM with _verb := none }
  let objectM := { objectM with _text := none }
  let objectM := { objectM with _mappings := none }
  let objectM := { objectM with _assessments := none }
  let objectM := { objectM with _strategies := none }
  let outcome3 := { outcome2 with extras := objectM.extras }
  (outcome3, objectM)

/-- Modelled from the spec: the serialized form of a `LearningOutcome`
(`LearningOutcome.serialize` is called by `LearningObject.serialize` but its
definition is not among the sources); per §6 it carries exactly the entity's
documented fields, children serialized recursively. -/
structure LearningOutcomeDoc where
  tag : Nat
  bloom : String
  verb : String
  text : String
  mappings : List Outcome
  assessments : List AssessmentPlanProperties
  strategies : List InstructionalStrategyProperties
deriving DecidableEq

/-- Modelled from the spec: `LearningOutcome.serialize`. -/
def LearningOutcome.serialize (entity : LearningOutcome) : LearningOutcomeDoc :=
  ⟨entity._tag, entity._bloom, entity._verb, entity._text, entity._mappings,
   entity._assessments.map (fun a => ⟨a._sourceBloom, a._plan, a._text⟩),
   entity._strategies.map (fun s => ⟨s._sourceBloom, s._strategy, s._text⟩)⟩

/-- View of a parsed outcome document as the properties object fed to
`instantiate` (a parsed JSON object has no extra keys beyond the serialized
ones). -/
def docToProperties (doc : LearningOutcomeDoc) : LearningOutcomeProperties :=
  ⟨doc.tag, doc.bloom, doc.verb, doc.text, doc.mappings, doc.assessments, doc.strategies, []⟩

/-- Modelled from the spec: `LearningOutcome.unserialize(msg, parent)` —
referenced by `LearningObject.unserialize` but not among the sources — parses
the message and reconstructs through the `instantiate` pattern, the parent
supplied by the caller. -/
def LearningOutcome.unserialize (msg : LearningOutcomeDoc) (parent : LearningObject) :
    LearningOutcome :=
  (LearningOutcome.instantiate parent (docToProperties msg)).1

/-! ### `LearningObject` from `src/lib/learning-object.ts` -/

/-- The `LearningObject` constructor: `if (!name) name = '';` then initializes
every field; `_length` is the first taxonomy length, `repository` is the empty
shape. -/
def LearningObject.new (author : User) (name : Option String) : LearningObject :=
  let name := match name with
    | none => ""
    | some s => if s = "" then "" else s
  { _author := author
    _name := name
    _date := ""
    _length := lengths.headD ""
    _goals := []
    _outcomes := []
    _repository := ⟨[], [], ""⟩ }

/-- The `name` setter: `set name(name: string) { this._name = name; }` —
plain assignment, no validation, no trimming. -/
def LearningObject.setName (o : LearningObject) (name : String) : LearningObject :=
  { o with _name := name }

/-- The `date` setter: `set date(date: string) { this._date = date; }` —
an ordinary public setter. -/
def LearningObject.setDate (o : LearningObject) (date : String) : LearningObject :=
  { o with _date := date }

/-- The `length` setter: validates against the taxonomy's length set and
throws on anything else. -/
def LearningObject.setLength (o : LearningObject) (length : String) : Except String LearningObject :=
  if lengths.contains length then .ok { o with _length := length }
  else .error (length ++ " is not a valid Learning Object class")

/-- `addGoal()`: pushes a new blank goal and returns a reference to the goal
itself. -/
def LearningObject.addGoal (o : LearningObject) : LearningObject × LearningGoal :=
  let goal : LearningGoal := ⟨""⟩
  ({ o with _goals := o._goals ++ [goal] }, goal)

/-- `removeGoal(i)`: `return this._goals.splice(i, 1)[0];`. -/
def LearningObject.removeGoal (o : LearningObject) (i : Nat) : LearningObject × Option LearningGoal :=
  if h : i < o._goals.length then
    ({ o with _goals := o._goals.take i ++ o._goals.drop (i + 1) }, some (o._goals.get ⟨i, h⟩))
  else (o, none)

/-- `addOutcome()`: pushes a new blank outcome (constructed on `this`, so the
tag-uniqueness scan runs against the current outcome list) and returns a
reference to the outcome itself. -/
def LearningObject.addOutcome (o : LearningObject) : LearningObject × LearningOutcome :=
  let outcome := LearningOutcome.mk' o
  ({ o with _outcomes := o._outcomes ++ [outcome] }, outcome)

/-- The serialized form of a `LearningObject` (the object
`LearningObject.serialize` passes to `JSON.stringify`). -/
structure LearningObjectDoc where
  name : String
  date : String
  length : String
  goals : List LearningGoalDoc
  outcomes : List LearningOutcomeDoc
  repository : Repository
deriving DecidableEq

/-- `LearningObject.serialize`: stringifies name, date, length, the goal and
outcome lists serialized element-wise, and the repository verbatim. -/
def LearningObject.serialize (entity : LearningObject) : LearningObjectDoc :=
  ⟨entity._name, entity._date, entity._length,
   entity._goals.map LearningGoal.serialize,
   entity._outcomes.map LearningOutcome.serialize,
   entity._repository⟩

/-- `LearningObject.unserialize(msg, parent)`: constructs a blank object for
`parent`, then assigns `_name`, `_date`, `_length`, `_goals`, `_outcomes` and
`_repository` directly from the parsed document — private-field assignments
that never invoke the validating setters.  The outcome elements are rebuilt
against the entity as it stands before the `_outcomes` assignment (its outcome
list still empty), mirroring the statement order of the source. -/
def LearningObject.unserialize (msg : LearningObjectDoc) (parent : User) : LearningObject :=
  let doc := msg
  let entity := LearningObject.new parent none
  let entity := { entity with _name := doc.name, _date := doc.date, _length := doc.length }
  let entity := { entity with _goals := doc.goals.map (fun a => LearningGoal.unserialize a) }
  let entity := { entity with _outcomes := doc.outcomes.map (fun a => LearningOutcome.unserialize a entity) }
  { entity with _repository := doc.repository }

/-! ### `StandardOutcome` from `src/lib/learning-outcome.ts` (second section)

This is the variant whose `name`/`date`/`outcome` getters all return the
`_author` backing field, while each setter validates its input against
emptiness after trimming. -/

/-- JavaScript `String.prototype.trim()`: strips whitespace from both ends
(modelled directly, since the entity code only ever uses `trim` on ordinary
whitespace). -/
def trimString (s : String) : String :=
  ⟨((s.data.dropWhile Char.isWhitespace).reverse.dropWhile Char.isWhitespace).reverse⟩

/-- Modelled from the spec: the error identifiers of
`STANDARD_OUTCOME_ERRORS` (its `error-messages.ts` is not among the sources),
one per validated field, per the spec's §7 error taxonomy. -/
inductive StandardOutcomeError
  | invalidAuthor
  | invalidName
  | invalidDate
  | invalidOutcome
deriving DecidableEq

structure StandardOutcome where
  _author : String
  _name : String
  _date : String
  _outcome : String
deriving DecidableEq

def StandardOutcome.author (o : StandardOutcome) : String := o._author

/-- The `name` getter: `return this._author;` as in the source. -/
def StandardOutcome.name (o : StandardOutcome) : String := o._author

/-- The `date` getter: `return this._author;` as in the source. -/
def StandardOutcome.date (o : StandardOutcome) : String := o._author

/-- The `outcome` getter: `return this._author;` as in the source. -/
def StandardOutcome.outcome (o : StandardOutcome) : String := o._author

/-- The `author` setter: `if (author && author.trim())` stores the raw value,
else throws `INVALID_AUTHOR`. -/
def StandardOutcome.setAuthor (o : StandardOutcome) (author : String) :
    Except StandardOutcomeError StandardOutcome :=
  if author ≠ "" ∧ trimString author ≠ "" then .ok { o with _author := author }
  else .error .invalidAuthor

def StandardOutcome.setName (o : StandardOutcome) (name : String) :
    Except StandardOutcomeError StandardOutcome :=
  if name ≠ "" ∧ trimString name ≠ "" then .ok { o with _name := name }
  else .error .invalidName

def StandardOutcome.setDate (o : StandardOutcome) (date : String) :
    Except StandardOutcomeError StandardOutcome :=
  if date ≠ "" ∧ trimString date ≠ "" then .ok { o with _date := date }
  else .error .invalidDate

def StandardOutcome.setOutcome (o : StandardOutcome) (outcome : String) :
    Except StandardOutcomeError StandardOutcome :=
  if outcome ≠ "" ∧ trimString outcome ≠ "" then .ok { o with _outcome := outcome }
  else .error .invalidOutcome

/-- `Partial<StandardOutcome>` as a plain object: each property present
(`some`) or missing/undefined (`none`). -/
structure PartialStandardOutcome where
  author : Option String
  name : Option String
  date : Option String
  outcome : Option String
deriving DecidableEq

/-- JavaScript truthiness of an optional string property: present and
non-empty. -/
def truthyStr (s : Option String) : Bool :=
  match s with
  | none => false
  | some v => decide (v ≠ "")

/-- `copyOutcome(outcome)`: four statements of the form
`if (outcome.author) { this.author = outcome.author; }` — each guarded by
truthiness of the property, each assigning through the public (validating)
setter, with a thrown error propagating out of the constructor. -/
def StandardOutcome.copyOutcome (o : StandardOutcome) (outcome : PartialStandardOutcome) :
    Except StandardOutcomeError StandardOutcome :=
  match (if truthyStr outcome.author then o.setAuthor (outcome.author.getD "") else Except.ok o) with
  | .error e => .error e
  | .ok o =>
    match (if truthyStr outcome.name then o.setName (outcome.name.getD "") else Except.ok o) with
    | .error e => .error e
    | .ok o =>
      match (if truthyStr outcome.date then o.setDate (outcome.date.getD "") else Except.ok o) with
      | .error e => .error e
      | .ok o =>
        match (if truthyStr outcome.outcome then o.setOutcome (outcome.outcome.getD "") else Except.ok o) with
        | .error e => .error e
        | .ok o => .ok o

/-- The `StandardOutcome` constructor: all-empty-string defaults, then
`copyOutcome` when a partial was supplied. -/
def StandardOutcome.new (outcome : Option PartialStandardOutcome) :
    Except StandardOutcomeError StandardOutcome :=
  let base : StandardOutcome := ⟨"", "", "", ""⟩
  match outcome with
  | some p => base.copyOutcome p
  | none => .ok base

/-! ### The newer `LearningOutcome` variant,
`src/lib/learning-outcome/learning-outcome.ts` -/

namespace V2

/-- The newer `LearningOutcome`: optional store-assigned `id`, bloom/verb/text,
and `StandardOutcome` mappings. -/
structure LearningOutcome where
  id : Option String
  _bloom : String
  _verb : String
  _text : String
  _mappings : List StandardOutcome
deriving DecidableEq

/-- The constructor's self-initialization (first taxonomy entries, empty text
and mappings) before any partial copy. -/
def LearningOutcome.new : LearningOutcome :=
  { id := none
    _bloom := levels.headD ""
    _verb := (verbs (levels.headD "")).headD ""
    _text := ""
    _mappings := [] }

/-- This variant's `mapTo(mapping)`:
`return this._mappings.push(mapping) - 1;` — appends and returns the 0-based
index of the new element. -/
def LearningOutcome.mapTo (o : LearningOutcome) (mapping : StandardOutcome) :
    LearningOutcome × Nat :=
  ({ o with _mappings := o._mappings ++ [mapping] }, (o._mappings ++ [mapping]).length - 1)

end V2

/-! ## Lemmas and claim theorems -/

theorem scanStep_eq (tags : List Nat) (c : Nat) :
    scanStep tags c = if c ∈ tags then some (c + 1) else none := by
  induction tags with
  | nil => rfl
  | cons t rest ih =>
    simp only [scanStep, List.mem_cons]
    by_cases h : t = c
    · subst h; simp
    · have h2 : ¬ c = t := fun hc => h hc.symm
      simp [h, h2, ih]

theorem length_filter_mono {α : Type} (p q : α → Bool) (h : ∀ x, p x = true → q x = true) :
    ∀ l : List α, (l.filter p).length ≤ (l.filter q).length := by
  intro l
  induction l with
  | nil => simp
  | cons a t ih =>
    by_cases hp : p a = true
    · have hq := h a hp
      simp [List.filter_cons, hp, hq]
      omega
    · simp only [List.filter_cons]
      rw [if_neg hp]
      by_cases hq : q a = true
      · rw [if_pos hq]
        simp
        omega
      · rw [if_neg hq]
        exact ih

theorem length_filter_succ_lt (c : Nat) (l : List Nat) (hmem : c ∈ l) :
    (l.filter (fun x => decide (c + 1 ≤ x))).length <
      (l.filter (fun x => decide (c ≤ x))).length := by
  induction l with
  | nil => cases hmem
  | cons a rest ih =>
    have hmono := length_filter_mono (fun x => decide (c + 1 ≤ x)) (fun x => decide (c ≤ x))
      (by intro x hx; simp at hx ⊢; omega) rest
    rcases List.mem_cons.mp hmem with h | h
    · subst h
      have h1 : (decide (c + 1 ≤ c)) = false := by simp
      have h2 : (decide (c ≤ c)) = true := by simp
      simp only [List.filter_cons, h1, h2, if_pos, if_neg, Bool.false_eq_true,
        not_false_eq_true, List.length_cons]
      omega
    · have hrest := ih h
      by_cases h1 : c + 1 ≤ a
      · have h2 : c ≤ a := by omega
        simp only [List.filter_cons]
        rw [if_pos (by simpa using h1), if_pos (by simpa using h2)]
        simp only [List.length_cons]
        omega
      · by_cases h2 : c ≤ a
        · simp only [List.filter_cons]
          rw [if_neg (by simpa using h1), if_pos (by simpa using h2)]
          simp only [List.length_cons]
          omega
        · simp only [List.filter_cons]
          rw [if_neg (by simpa using h1), if_neg (by simpa using h2)]
          exact hrest

theorem tagLoop_spec :
    ∀ (fuel : Nat) (tags : List Nat) (c : Nat),
      (tags.filter (fun x => decide (c ≤ x))).length < fuel →
      tagLoop fuel tags c ∉ tags ∧ c ≤ tagLoop fuel tags c ∧
        ∀ k, c ≤ k → k < tagLoop fuel tags c → k ∈ tags := by
  intro fuel
  induction fuel with
  | zero => intro tags c h; omega
  | succ n ih =>
    intro tags c h
    cases hstep : scanStep tags c with
    | none =>
      have hc : c ∉ tags := by
        rw [scanStep_eq] at hstep
        by_cases hc : c ∈ tags
        · simp [hc] at hstep
        · exact hc
      simp only [tagLoop, hstep]
      exact ⟨hc, Nat.le_refl c, fun k hk1 hk2 => absurd (Nat.lt_of_le_of_lt hk1 hk2) (Nat.lt_irrefl c)⟩
    | some c2 =>
      have hc : c ∈ tags ∧ c2 = c + 1 := by
        rw [scanStep_eq] at hstep
        by_cases hc : c ∈ tags
        · rw [if_pos hc] at hstep
          exact ⟨hc, (Option.some.injEq _ _ ▸ hstep).symm⟩
        · rw [if_neg hc] at hstep
          cases hstep
      obtain ⟨hmem, rfl⟩ := hc
      have hfuel : (tags.filter (fun x => decide (c + 1 ≤ x))).length < n := by
        have := length_filter_succ_lt c tags hmem
        omega
      obtain ⟨h1, h2, h3⟩ := ih tags (c + 1) hfuel
      simp only [tagLoop, hstep]
      refine ⟨h1, by omega, ?_⟩
      intro k hk1 hk2
      by_cases hkc : k = c
      · subst hkc; exact hmem
      · exact h3 k (by omega) hk2

theorem assignTag_spec (tags : List Nat) :
    assignTag tags ∉ tags ∧ ∀ k, k < assignTag tags → k ∈ tags := by
  have hall : (tags.filter (fun x => decide (0 ≤ x))).length < tags.length + 1 := by
    have hle : (tags.filter (fun x => decide (0 ≤ x))).length ≤ tags.length :=
      List.length_filter_le _ tags
    omega
  obtain ⟨h1, _, h3⟩ := tagLoop_spec (tags.length + 1) tags 0 hall
  exact ⟨h1, fun k hk => h3 k (Nat.zero_le k) hk⟩

/-- Claim C1: for a `LearningObject` whose existing outcomes carry tags forming
a set `S`, constructing a new `LearningOutcome` with that object as source
assigns the new outcome the smallest non-negative integer not in `S` — the
constructor starts the candidate at 0 and, on any collision, increments it and
rescans the whole outcome list until a full pass finds no collision. -/
theorem tag_assignment_is_mex (source : LearningObject) :
    (LearningOutcome.mk' source)._tag ∉ source._outcomes.map (fun o => o._tag) ∧
    ∀ m, m ∉ source._outcomes.map (fun o => o._tag) →
      (LearningOutcome.mk' source)._tag ≤ m := by
  have htag : (LearningOutcome.mk' source)._tag
      = assignTag (source._outcomes.map (fun o => o._tag)) := rfl
  obtain ⟨h1, h2⟩ := assignTag_spec (source._outcomes.map (fun o => o._tag))
  rw [htag]
  refine ⟨h1, fun m hm => ?_⟩
  by_contra hlt
  push_neg at hlt
  exact hm (h2 m hlt)

def sampleUser : User := ⟨"u1", "Author One", "a1@example.org", "org"⟩

def sampleOutcomeWithTag (t : Nat) : LearningOutcome :=
  ⟨⟨sampleUser, "obj", ""⟩, t, "remember", "define", "", [], [], [], []⟩

/-- A concrete object with outcome tags `{1, 0, 3}`, whose mex is `2`. -/
def sampleObject : LearningObject :=
  ⟨sampleUser, "obj", "", "module", [],
   [sampleOutcomeWithTag 1, sampleOutcomeWithTag 0, sampleOutcomeWithTag 3], ⟨[], [], ""⟩⟩

theorem tag_assignment_is_mex_witness :
    (LearningOutcome.mk' sampleObject)._tag ∉
      sampleObject._outcomes.map (fun o => o._tag) ∧
    (LearningOutcome.mk' sampleObject)._tag ≤ 2 :=
  ⟨(tag_assignment_is_mex sampleObject).1,
   (tag_assignment_is_mex sampleObject).2 2 (by decide)⟩

/-- Claim C9: the `LearningOutcome` constructor dereferences `source.author`,
`source.name` and `source.date` before its `if (source)` null-guard, so a call
with a null/undefined source throws; the guarded branch for a source-less
outcome is unreachable (every non-throwing run had a truthy source) and every
successfully constructed outcome holds the non-null source snapshot. -/
theorem constructor_derefs_source_before_guard :
    LearningOutcome.construct none = Except.error JsError.typeError ∧
    (∀ src out, LearningOutcome.construct (some src) = Except.ok out →
      out._source = ⟨src._author, src._name, src._date⟩) ∧
    (∀ source out, LearningOutcome.construct source = Except.ok out →
      isTruthyObject source = true) := by
  refine ⟨rfl, ?_, ?_⟩
  · intro src out h
    have hout : LearningOutcome.mk' src = out := by
      simpa [LearningOutcome.construct] using h
    rw [← hout]
    rfl
  · intro source out h
    cases source with
    | none => simp [LearningOutcome.construct] at h
    | some src => rfl

theorem constructor_derefs_source_before_guard_witness :
    (LearningOutcome.mk' sampleObject)._source = ⟨sampleUser, "obj", ""⟩ ∧
    isTruthyObject (some sampleObject) = true :=
  ⟨constructor_derefs_source_before_guard.2.1 sampleObject (LearningOutcome.mk' sampleObject) rfl,
   constructor_derefs_source_before_guard.2.2 (some sampleObject)
     (LearningOutcome.mk' sampleObject) rfl⟩

/-- Counterexample to claim C5: assigning a name with surrounding whitespace
stores it untrimmed, so the stored name is not the trimmed argument (and no
`InvalidName` check exists anywhere in the setter body). -/
theorem setName_stores_untrimmed :
    ((LearningObject.new sampleUser none).setName "  x  ")._name = "  x  " ∧
    trimString "  x  " = "x" ∧ ("  x  " : String) ≠ "x" :=
  ⟨rfl, by decide, by decide⟩

/-- Claim C5 (amended): the `name` setter performs no validation and no
trimming — it always succeeds and stores its argument verbatim, leaving every
other field unchanged. -/
theorem setName_no_validation (o : LearningObject) (name : String) :
    (o.setName name)._name = name ∧ o.setName name = { o with _name := name } :=
  ⟨rfl, rfl⟩

/-- Counterexample to claim C6: `date` has an ordinary public setter — an
outside caller stores an arbitrary value into it — and `addGoal`, a mutation
of the goals collection, leaves `date` exactly as it was (the blank
constructor date), not a fresh timestamp. -/
theorem date_externally_assignable :
    ((LearningObject.new sampleUser none).setDate "2020-01-01")._date = "2020-01-01" ∧
    ((LearningObject.new sampleUser none).addGoal).1._date = "" ∧
    (LearningObject.new sampleUser none)._date = "" :=
  ⟨rfl, rfl, rfl⟩

/-- Claim C6 (amended): no mutator touches `date` — name assignment, goal and
outcome additions and successful length assignment all leave `_date` unchanged
— while `date` itself is a plain public property stored verbatim by its own
setter. -/
theorem date_untouched_by_mutators (o : LearningObject) (n l d : String) :
    (o.setName n)._date = o._date ∧
    (o.addGoal).1._date = o._date ∧
    (o.addOutcome).1._date = o._date ∧
    (∀ o2, o.setLength l = Except.ok o2 → o2._date = o._date) ∧
    (o.setDate d)._date = d := by
  refine ⟨rfl, rfl, rfl, ?_, rfl⟩
  intro o2 h
  unfold LearningObject.setLength at h
  split at h
  · cases h; rfl
  · cases h

theorem date_untouched_by_mutators_witness :
    ((LearningObject.new sampleUser none).setName "x")._date
        = (LearningObject.new sampleUser none)._date ∧
    ({ LearningObject.new sampleUser none with _length := "module" } : LearningObject)._date
        = (LearningObject.new sampleUser none)._date :=
  ⟨(date_untouched_by_mutators (LearningObject.new sampleUser none) "x" "module" "d").1,
   (date_untouched_by_mutators (LearningObject.new sampleUser none) "x" "module" "d").2.2.2.1
     { LearningObject.new sampleUser none with _length := "module" }
     (by unfold LearningObject.setLength; rw [if_pos (by decide)])⟩

def sampleStandardOutcome : StandardOutcome := ⟨"auth", "nm", "dt", "out"⟩

/-- Counterexample to claim C4: in the newer variant
(`src/lib/learning-outcome/learning-outcome.ts`) `mapTo` on an outcome with no
mappings returns `0` — the 0-based index — while after the append the mappings
array has length `1`, so the returned value is not the 1-based length the
claim asserts for every `LearningOutcome`. -/
theorem mapTo_v2_returns_zero_based_index :
    (V2.LearningOutcome.new.mapTo sampleStandardOutcome).2 = 0 ∧
    (V2.LearningOutcome.new.mapTo sampleStandardOutcome).1._mappings.length = 1 ∧
    (0 : Nat) ≠ 1 :=
  ⟨rfl, rfl, by decide⟩

/-- Claim C4 (amended): the `src/lib/learning-outcome.ts` `mapTo` appends and
returns the 1-based new length; the `src/lib/learning-outcome/learning-outcome.ts`
`mapTo` appends and returns the 0-based index; and `LearningObject`'s
`addGoal`/`addOutcome` append and return the new element itself — a reference,
not an index of either convention. -/
theorem add_method_return_conventions :
    (∀ (o : LearningOutcome) (m : Outcome), (o.mapTo m).2 = o._mappings.length + 1) ∧
    (∀ (o : V2.LearningOutcome) (m : StandardOutcome),
      (V2.LearningOutcome.mapTo o m).2 = o._mappings.length) ∧
    (∀ obj : LearningObject,
      (obj.addGoal).2 = (⟨""⟩ : LearningGoal) ∧
      (obj.addGoal).1._goals = obj._goals ++ [(⟨""⟩ : LearningGoal)] ∧
      (obj.addOutcome).2 = LearningOutcome.mk' obj ∧
      (obj.addOutcome).1._outcomes = obj._outcomes ++ [LearningOutcome.mk' obj]) := by
  refine ⟨?_, ?_, ?_⟩
  · intro o m
    simp [LearningOutcome.mapTo]
  · intro o m
    simp [V2.LearningOutcome.mapTo]
  · intro obj
    exact ⟨rfl, rfl, rfl, rfl⟩

/-- Claim C10: `LearningOutcome.instantiate` mutates its properties argument —
after every call the seven declared keys have been deleted from the caller's
object and only the unrecognized extra keys remain (which were also the keys
copied onto the instance). -/
theorem instantiate_deletes_known_props (source : LearningObject)
    (object : LearningOutcomeProperties) :
    (LearningOutcome.instantiate source object).2._tag = none ∧
    (LearningOutcome.instantiate source object).2._bloom = none ∧
    (LearningOutcome.instantiate source object).2._verb = none ∧
    (LearningOutcome.instantiate source object).2._text = none ∧
    (LearningOutcome.instantiate source object).2._mappings = none ∧
    (LearningOutcome.instantiate source object).2._assessments = none ∧
    (LearningOutcome.instantiate source object).2._strategies = none ∧
    (LearningOutcome.instantiate source object).2.extras = object.extras ∧
    (LearningOutcome.instantiate source object).1.extras = object.extras :=
  ⟨rfl, rfl, rfl, rfl, rfl, rfl, rfl, rfl, rfl⟩

/-- A parsed document holding a length value that is outside the taxonomy's
length set. -/
def invalidLengthDoc : LearningObjectDoc := ⟨"n", "d", "bogus", [], [], ⟨[], [], ""⟩⟩

/-- Counterexample to claim C2: unserializing a document whose stored length
is not in the taxonomy's length set produces — without any error — an entity
holding that invalid value, even though the public `length` setter rejects the
very same value. -/
theorem unserialize_stores_invalid_length :
    (LearningObject.unserialize invalidLengthDoc sampleUser)._length = "bogus" ∧
    lengths.contains "bogus" = false ∧
    (LearningObject.new sampleUser none).setLength "bogus" =
      Except.error ("bogus" ++ " is not a valid Learning Object class") := by
  refine ⟨rfl, by decide, ?_⟩
  unfold LearningObject.setLength
  rw [if_neg (by decide)]

/-- Claim C2 (amended): `LearningObject.unserialize` and
`LearningOutcome.instantiate` assign every reconstructed leaf field directly to
the private backing field, bypassing the validating setters entirely: both are
total and copy the stored values verbatim, whatever they are. -/
theorem unserialize_bypasses_validation :
    (∀ (doc : LearningObjectDoc) (parent : User),
      (LearningObject.unserialize doc parent)._length = doc.length ∧
      (LearningObject.unserialize doc parent)._name = doc.name ∧
      (LearningObject.unserialize doc parent)._date = doc.date) ∧
    (∀ (source : LearningObject) (object : LearningOutcomeProperties),
      (LearningOutcome.instantiate source object).1._bloom = object._bloom ∧
      (LearningOutcome.instantiate source object).1._verb = object._verb ∧
      (LearningOutcome.instantiate source object).1._tag = object._tag ∧
      (LearningOutcome.instantiate source object).1._text = object._text) := by
  refine ⟨?_, ?_⟩
  · intro doc parent
    exact ⟨rfl, rfl, rfl⟩
  · intro source object
    exact ⟨rfl, rfl, rfl, rfl⟩

/-- Counterexample to claim C7: this is the variant whose `name` getter
returns the author field (`sampleStandardOutcome.name` yields `"auth"` even
though `_name` is `"nm"`), yet assigning the empty string to `author` throws
`INVALID_AUTHOR` — validation is performed. -/
theorem standard_outcome_empty_author_throws :
    (⟨"", "", "", ""⟩ : StandardOutcome).setAuthor ""
        = Except.error StandardOutcomeError.invalidAuthor ∧
    sampleStandardOutcome.name = "auth" ∧ sampleStandardOutcome._name = "nm" := by
  refine ⟨?_, rfl, rfl⟩
  unfold StandardOutcome.setAuthor
  rw [if_neg]
  intro h
  exact h.1 rfl

/-- Claim C7 (amended): in the `StandardOutcome` variant whose `name`, `date`
and `outcome` getters all return the author field, the setters do validate:
each rejects any empty or whitespace-only string with its field's error, and
accepts and stores (untrimmed) any string with non-whitespace content. -/
theorem standard_outcome_validates_with_getter_bug (o : StandardOutcome) (s : String) :
    o.name = o._author ∧ o.date = o._author ∧ o.outcome = o._author ∧
    (trimString s = "" →
      o.setAuthor s = Except.error StandardOutcomeError.invalidAuthor ∧
      o.setName s = Except.error StandardOutcomeError.invalidName ∧
      o.setDate s = Except.error StandardOutcomeError.invalidDate ∧
      o.setOutcome s = Except.error StandardOutcomeError.invalidOutcome) ∧
    (trimString s ≠ "" →
      o.setAuthor s = Except.ok { o with _author := s } ∧
      o.setName s = Except.ok { o with _name := s } ∧
      o.setDate s = Except.ok { o with _date := s } ∧
      o.setOutcome s = Except.ok { o with _outcome := s }) := by
  refine ⟨rfl, rfl, rfl, ?_, ?_⟩
  · intro hs
    have hneg : ¬ (s ≠ "" ∧ trimString s ≠ "") := fun h => h.2 hs
    refine ⟨?_, ?_, ?_, ?_⟩
    · unfold StandardOutcome.setAuthor; rw [if_neg hneg]
    · unfold StandardOutcome.setName; rw [if_neg hneg]
    · unfold StandardOutcome.setDate; rw [if_neg hneg]
    · unfold StandardOutcome.setOutcome; rw [if_neg hneg]
  · intro hs
    have hne : s ≠ "" := by
      intro h
      rw [h] at hs
      exact hs rfl
    have hpos : s ≠ "" ∧ trimString s ≠ "" := ⟨hne, hs⟩
    refine ⟨?_, ?_, ?_, ?_⟩
    · unfold StandardOutcome.setAuthor; rw [if_pos hpos]
    · unfold StandardOutcome.setName; rw [if_pos hpos]
    · unfold StandardOutcome.setDate; rw [if_pos hpos]
    · unfold StandardOutcome.setOutcome; rw [if_pos hpos]

theorem standard_outcome_validates_with_getter_bug_witness :
    sampleStandardOutcome.setAuthor " " = Except.error StandardOutcomeError.invalidAuthor ∧
    sampleStandardOutcome.setAuthor "x"
        = Except.ok { sampleStandardOutcome with _author := "x" } :=
  ⟨((standard_outcome_validates_with_getter_bug sampleStandardOutcome " ").2.2.2.1
      (by decide)).1,
   ((standard_outcome_validates_with_getter_bug sampleStandardOutcome "x").2.2.2.2
      (by decide)).1⟩

/-- Counterexample to claim C8: constructing a `StandardOutcome` from the
partial `{ author: "   " }` throws `INVALID_AUTHOR` — a whitespace-only string
is truthy, so the presence guard passes and the public setter's validation
fires inside the constructor. -/
theorem standard_outcome_whitespace_partial_throws :
    StandardOutcome.new (some ⟨some "   ", none, none, none⟩) =
      Except.error StandardOutcomeError.invalidAuthor := rfl

/-- Whether a present property makes it through `copyOutcome` without a throw:
it is either falsy (skipped by the guard) or has non-whitespace content. -/
def fieldOk (s : Option String) : Prop :=
  match s with
  | none => True
  | some v => v = "" ∨ trimString v ≠ ""

instance (s : Option String) : Decidable (fieldOk s) :=
  match s with
  | none => isTrue True.intro
  | some v => inferInstanceAs (Decidable (v = "" ∨ trimString v ≠ ""))

theorem truthy_val (a : Option String) :
    (if truthyStr a then a.getD "" else "") = a.getD "" := by
  cases a with
  | none => rfl
  | some v =>
    by_cases h : v = ""
    · rw [h]; rfl
    · simp [truthyStr, h]

theorem copy_step_author (o : StandardOutcome) (a : Option String) (h : fieldOk a) :
    (if truthyStr a then o.setAuthor (a.getD "") else Except.ok o) =
      Except.ok { o with _author := if truthyStr a then a.getD "" else o._author } := by
  cases a with
  | none => rfl
  | some v =>
    have h' : v = "" ∨ trimString v ≠ "" := h
    rcases h' with h' | h'
    · rw [h']; rfl
    · have hv : v ≠ "" := by
        intro he
        rw [he] at h'
        exact h' rfl
      have ht : truthyStr (some v) = true := by simp [truthyStr, hv]
      rw [ht]
      simp only [if_true]
      unfold StandardOutcome.setAuthor
      rw [if_pos ⟨hv, h'⟩]

theorem copy_step_name (o : StandardOutcome) (a : Option String) (h : fieldOk a) :
    (if truthyStr a then o.setName (a.getD "") else Except.ok o) =
      Except.ok { o with _name := if truthyStr a then a.getD "" else o._name } := by
  cases a with
  | none => rfl
  | some v =>
    have h' : v = "" ∨ trimString v ≠ "" := h
    rcases h' with h' | h'
    · rw [h']; rfl
    · have hv : v ≠ "" := by
        intro he
        rw [he] at h'
        exact h' rfl
      have ht : truthyStr (some v) = true := by simp [truthyStr, hv]
      rw [ht]
      simp only [if_true]
      unfold StandardOutcome.setName
      rw [if_pos ⟨hv, h'⟩]

theorem copy_step_date (o : StandardOutcome) (a : Option String) (h : fieldOk a) :
    (if truthyStr a then o.setDate (a.getD "") else Except.ok o) =
      Except.ok { o with _date := if truthyStr a then a.getD "" else o._date } := by
  cases a with
  | none => rfl
  | some v =>
    have h' : v = "" ∨ trimString v ≠ "" := h
    rcases h' with h' | h'
    · rw [h']; rfl
    · have hv : v ≠ "" := by
        intro he
        rw [he] at h'
        exact h' rfl
      have ht : truthyStr (some v) = true := by simp [truthyStr, hv]
      rw [ht]
      simp only [if_true]
      unfold StandardOutcome.setDate
      rw [if_pos ⟨hv, h'⟩]

theorem copy_step_outcome (o : StandardOutcome) (a : Option String) (h : fieldOk a) :
    (if truthyStr a then o.setOutcome (a.getD "") else Except.ok o) =
      Except.ok { o with _outcome := if truthyStr a then a.getD "" else o._outcome } := by
  cases a with
  | none => rfl
  | some v =>
    have h' : v = "" ∨ trimString v ≠ "" := h
    rcases h' with h' | h'
    · rw [h']; rfl
    · have hv : v ≠ "" := by
        intro he
        rw [he] at h'
        exact h' rfl
      have ht : truthyStr (some v) = true := by simp [truthyStr, hv]
      rw [ht]
      simp only [if_true]
      unfold StandardOutcome.setOutcome
      rw [if_pos ⟨hv, h'⟩]

/-- Claim C8 (amended): construction from a partial object copies each present
truthy field through the public setter — so whenever every present field is
either falsy or has non-whitespace content the constructor succeeds, present
truthy fields are copied and falsy or missing fields keep the empty-string
defaults; a present whitespace-only field, by contrast, makes the constructor
throw (see the counterexample). -/
theorem standard_outcome_partial_copy (p : PartialStandardOutcome)
    (h1 : fieldOk p.author) (h2 : fieldOk p.name) (h3 : fieldOk p.date)
    (h4 : fieldOk p.outcome) :
    StandardOutcome.new (some p) =
      Except.ok ⟨p.author.getD "", p.name.getD "", p.date.getD "", p.outcome.getD ""⟩ := by
  show StandardOutcome.copyOutcome ⟨"", "", "", ""⟩ p = _
  unfold StandardOutcome.copyOutcome
  simp only [copy_step_author _ _ h1, copy_step_name _ _ h2, copy_step_date _ _ h3,
    copy_step_outcome _ _ h4, truthy_val]

theorem standard_outcome_partial_copy_witness :
    StandardOutcome.new (some ⟨some "auth", none, some "1999", none⟩) =
      Except.ok ⟨"auth", "", "1999", ""⟩ := by
  have h := standard_outcome_partial_copy ⟨some "auth", none, some "1999", none⟩
    (by decide) (by decide) (by decide) (by decide)
  exact h

theorem goal_roundtrip (g : LearningGoal) :
    LearningGoal.unserialize (LearningGoal.serialize g) = g := rfl

theorem map_goal_roundtrip (l : List LearningGoal) :
    (l.map LearningGoal.serialize).map (fun a => LearningGoal.unserialize a) = l := by
  induction l with
  | nil => rfl
  | cons g t ih => simp [ih, goal_roundtrip]

theorem assessment_props_roundtrip (src : LearningOutcome) (l : List AssessmentPlanProperties) :
    ((l.map (fun a => AssessmentPlan.instantiate src a)).map
      (fun a => (⟨a._sourceBloom, a._plan, a._text⟩ : AssessmentPlanProperties))) = l := by
  induction l with
  | nil => rfl
  | cons a t ih =>
    simp only [List.map_cons, List.cons.injEq]
    exact ⟨rfl, ih⟩

theorem strategy_props_roundtrip (src : LearningOutcome) (l : List InstructionalStrategyProperties) :
    ((l.map (fun s => InstructionalStrategy.instantiate src s)).map
      (fun s => (⟨s._sourceBloom, s._strategy, s._text⟩ : InstructionalStrategyProperties))) = l := by
  induction l with
  | nil => rfl
  | cons s t ih =>
    simp only [List.map_cons, List.cons.injEq]
    exact ⟨rfl, ih⟩

theorem outcome_doc_roundtrip (d : LearningOutcomeDoc) (parent : LearningObject) :
    LearningOutcome.serialize (LearningOutcome.unserialize d parent) = d := by
  unfold LearningOutcome.serialize LearningOutcome.unserialize LearningOutcome.instantiate
    docToProperties
  simp only [assessment_props_roundtrip, strategy_props_roundtrip]

theorem map_outcome_roundtrip (l : List LearningOutcomeDoc) (parent : LearningObject) :
    (l.map (fun a => LearningOutcome.unserialize a parent)).map LearningOutcome.serialize = l := by
  induction l with
  | nil => rfl
  | cons d t ih => simp [ih, outcome_doc_roundtrip]

/-- Claim C3: serializing a `LearningObject` and reconstructing it through
`unserialize` of the parsed document yields an object with identical name,
date and length, the same goals (goal elements round-trip to equality), and an
outcome list of the same length whose elements carry the same serialized
content — the recursive round-trip property for the entity's child arrays.
(The `LearningObject` of these sources has no status or children fields; the
round trip is proved for every field the entity has.) -/
theorem serialize_roundtrip_preserves_fields (obj : LearningObject) (parent : User) :
    (LearningObject.unserialize (LearningObject.serialize obj) parent)._name = obj._name ∧
    (LearningObject.unserialize (LearningObject.serialize obj) parent)._date = obj._date ∧
    (LearningObject.unserialize (LearningObject.serialize obj) parent)._length = obj._length ∧
    (LearningObject.unserialize (LearningObject.serialize obj) parent)._goals = obj._goals ∧
    (LearningObject.unserialize (LearningObject.serialize obj) parent)._outcomes.map
        LearningOutcome.serialize = obj._outcomes.map LearningOutcome.serialize ∧
    (LearningObject.unserialize (LearningObject.serialize obj) parent)._repository
        = obj._repository := by
  refine ⟨rfl, rfl, rfl, ?_, ?_, rfl⟩
  · exact map_goal_roundtrip obj._goals
  · exact map_outcome_roundtrip (obj._outcomes.map LearningOutcome.serialize) _
